import Mathlib

/-!
Shallow embedding of the track-extraction pipeline of the classifier-pipeline
repository (src/track/trackextractor.py), together with theorems settling the
frozen claims about it.  Machine integers are modelled by `ℤ`/`ℕ` and the
floating-point arithmetic of numpy by exact rationals `ℚ`; array operations
become list operations.  Methods of `Region`, `Track` and `Rectangle` that are
imported from modules not present under src/ are modelled from the spec and
carry a doc comment saying so.
-/

namespace ClassifierPipeline

/-- Clamp-at-zero, embedding the numpy idiom `a[a < 0] = 0` applied pixelwise. -/
def relu (x : ℚ) : ℚ := if x < 0 then 0 else x

/-- Insertion step of an ascending insertion sort on rationals. -/
def insertQ (x : ℚ) : List ℚ → List ℚ
  | [] => [x]
  | y :: ys => if x ≤ y then x :: y :: ys else y :: insertQ x ys

/-- Ascending sort on rationals, used to embed `np.median`. -/
def sortQ (l : List ℚ) : List ℚ := l.foldr insertQ []

/-- Embeds `np.median`: middle element of the sorted data for odd length, the
mean of the two middle elements for even length (0 on empty input, which the
pipeline never produces). -/
def npMedian (xs : List ℚ) : ℚ :=
  let s := sortQ xs
  let n := s.length
  if n = 0 then 0
  else if n % 2 = 1 then s.getD (n / 2) 0
  else (s.getD (n / 2 - 1) 0 + s.getD (n / 2) 0) / 2

/-- Embeds `np.average` on an integer array: the exact mean as a rational. -/
def npAverage (xs : List ℤ) : ℚ := (xs.sum : ℚ) / (xs.length : ℚ)

/-- Embeds Python `int(round(x))`: round half to even. -/
def pyRound (q : ℚ) : ℤ :=
  let f := ⌊q⌋
  let frac := q - (f : ℚ)
  if frac < 1 / 2 then f
  else if 1 / 2 < frac then f + 1
  else if f % 2 = 0 then f else f + 1

/-- Embeds `TrackExtractor.get_filtered` (src/track/trackextractor.py lines
255-277).  The thermal frame is a flattened list of integer pixel values; the
optional `background` is a flattened list of rationals (the statistical
background is a percentile and may be fractional).  Branch selection follows
the source: `background = None` picks the no-background mode, otherwise
`background_is_preview` selects between the preview and statistical modes.
Note the preview branch subtracts the background and the rounded average
change with no clamp at zero, exactly as in the source. -/
def get_filtered (background_is_preview : Bool) (temp_thresh : ℚ)
    (mean_background_value : ℚ) (thermal : List ℤ)
    (background : Option (List ℚ)) : List ℚ :=
  match background with
  | none =>
      let m := npMedian (thermal.map (fun p => (p : ℚ)))
      thermal.map (fun p => relu ((p : ℚ) - m - 40))
  | some bg =>
      if background_is_preview then
        let avg_change : ℤ := pyRound (npAverage thermal - mean_background_value)
        (thermal.zip bg).map (fun pr =>
          (if (pr.1 : ℚ) < temp_thresh then 0 else (pr.1 : ℚ)) - pr.2 - (avg_change : ℚ))
      else
        let sub := (thermal.zip bg).map (fun pr => relu ((pr.1 : ℚ) - pr.2))
        let m := npMedian sub
        sub.map (fun x => relu (x - m))

/-! ## Grids and masks -/

/-- A binary / label mask: a list of rows of naturals. -/
abbrev Grid := List (List ℕ)

/-- A frame of rational pixel values: a list of rows. -/
abbrev QGrid := List (List ℚ)

/-- Number of rows of a grid. -/
def gridRows (g : List (List α)) : ℕ := g.length

/-- Number of columns of a grid (width of the first row). -/
def gridCols (g : List (List α)) : ℕ := (g.headD []).length

/-- Pixel access on a rational frame, 0 outside the stored area. -/
def getPixQ (g : QGrid) (y x : ℕ) : ℚ := (g.getD y []).getD x 0

/-- Pixel access on a mask, 0 outside the stored area. -/
def getPix (g : Grid) (y x : ℕ) : ℕ := (g.getD y []).getD x 0

/-- Embeds OpenCV BORDER_REFLECT_101 index reflection for the source index
`y + k - 2` of a 5x5 kernel tap (single reflection, which is what the kernel
needs on frames at least three pixels wide): indices below 0 reflect to
`-i`, indices at or beyond `n` reflect to `2*n - 2 - i`. -/
def reflectIdx (n y k : ℕ) : ℕ :=
  if y + k < 2 then 2 - (y + k)
  else if n ≤ y + k - 2 then 2 * n - 2 - (y + k - 2)
  else y + k - 2

/-- The fixed binomial kernel OpenCV uses for `GaussianBlur` with ksize 5 and
sigma 0: offsets paired with weights [1,4,6,4,1] (normalisation 1/16 per
axis, 1/256 for the separable product). -/
def gaussWeights : List (ℕ × ℕ) := [(0, 1), (1, 4), (2, 6), (3, 4), (4, 1)]

/-- Embeds `cv2.GaussianBlur(frame, (5,5), 0)` exactly, with the fixed
binomial kernel and reflected borders. -/
def gaussianBlur5 (g : QGrid) : QGrid :=
  (List.range (gridRows g)).map (fun y =>
    (List.range (gridCols g)).map (fun x =>
      (gaussWeights.map (fun ky =>
        (gaussWeights.map (fun kx =>
          ((ky.2 * kx.2 : ℕ) : ℚ) *
            getPixQ g (reflectIdx (gridRows g) y ky.1)
                      (reflectIdx (gridCols g) x kx.1))).sum)).sum
        / 256))

/-- Embeds `blur_and_return_as_mask` (src/track/trackextractor.py lines
733-742): Gaussian blur minus the threshold, clamped at 0, then strictly
positive values mapped to 1 — so a pixel is foreground iff blur exceeds the
threshold strictly. -/
def blur_and_return_as_mask (frame : QGrid) (threshold : ℚ) : Grid :=
  (gaussianBlur5 frame).map (fun row =>
    row.map (fun v => if 0 < v - threshold then 1 else 0))

/-- Embeds `cv2.dilate` with the all-ones square kernel of side `2*d+1`: a
pixel becomes foreground when any stored pixel within Chebyshev distance `d`
is foreground (truncated subtraction only re-tests in-range pixels). -/
def dilateGrid (d : ℕ) (g : Grid) : Grid :=
  (List.range (gridRows g)).map (fun y =>
    (List.range (gridCols g)).map (fun x =>
      if (List.range (2 * d + 1)).any (fun ky =>
           (List.range (2 * d + 1)).any (fun kx =>
             decide (0 < getPix g (y + ky - d) (x + kx - d))))
      then 1 else 0))

/-- The 8-connected neighbours of a cell, with explicit border guards. -/
def nbrs8 (p : ℕ × ℕ) : List (ℕ × ℕ) :=
  [(p.1 + 1, p.2), (p.1, p.2 + 1), (p.1 + 1, p.2 + 1)] ++
  (if 0 < p.1 then [(p.1 - 1, p.2), (p.1 - 1, p.2 + 1)] else []) ++
  (if 0 < p.2 then [(p.1, p.2 - 1), (p.1 + 1, p.2 - 1)] else []) ++
  (if 0 < p.1 ∧ 0 < p.2 then [(p.1 - 1, p.2 - 1)] else [])

/-- Fuel-bounded flood fill collecting one 8-connected foreground component;
with fuel at least 9 per stored pixel plus the seed it exhausts the
component. -/
def floodFill (g : Grid) : ℕ → List (ℕ × ℕ) → List (ℕ × ℕ) → List (ℕ × ℕ)
  | 0, _, acc => acc
  | _ + 1, [], acc => acc
  | fuel + 1, p :: queue, acc =>
      if p ∈ acc then floodFill g fuel queue acc
      else if 0 < getPix g p.1 p.2 then
        floodFill g fuel (queue ++ nbrs8 p) (p :: acc)
      else floodFill g fuel queue acc

/-- Embeds the component labelling of `cv2.connectedComponentsWithStats`
(8-connectivity): foreground components listed in row-major discovery
order. -/
def componentsOf (g : Grid) : List (List (ℕ × ℕ)) :=
  let cells := ((List.range (gridRows g)).map (fun y =>
    (List.range (gridCols g)).map (fun x => (y, x)))).flatten
  (cells.foldl (fun st p =>
      if p ∈ st.1 then st
      else if 0 < getPix g p.1 p.2 then
        let c := floodFill g (9 * (gridRows g * gridCols g) + 9) [p] []
        (c ++ st.1, st.2 ++ [c])
      else st)
    (([], []) : List (ℕ × ℕ) × List (List (ℕ × ℕ)))).2

/-- Per-component statistics as returned by
`cv2.connectedComponentsWithStats`: left, top, width, height, area. -/
structure CompStat where
  x : ℕ
  y : ℕ
  width : ℕ
  height : ℕ
  area : ℕ
deriving DecidableEq

/-- Bounding box and area of one component. -/
def compStats (c : List (ℕ × ℕ)) : CompStat :=
  match c with
  | [] => ⟨0, 0, 0, 0, 0⟩
  | p :: ps =>
      let x0 := (ps.map Prod.snd).foldl min p.2
      let y0 := (ps.map Prod.fst).foldl min p.1
      let x1 := (ps.map Prod.snd).foldl max p.2
      let y1 := (ps.map Prod.fst).foldl max p.1
      ⟨x0, y0, x1 - x0 + 1, y1 - y0 + 1, (p :: ps).length⟩

/-- Sum of mask values inside the box `[x, x+w) x [y, y+h)`; embeds
`np.sum(region.subimage(thresh))`. -/
def sumIn (g : Grid) (x y w h : ℕ) : ℕ :=
  ((List.range h).map (fun dy =>
    ((List.range w).map (fun dx => getPix g (y + dy) (x + dx))).sum)).sum

/-- Number of foreground (value 1) mask pixels inside the box
`[x, x+w) x [y, y+h)` — the spec's "count of foreground pixels". -/
def countIn (g : Grid) (x y w h : ℕ) : ℕ :=
  ((List.range h).map (fun dy =>
    ((List.range w).map (fun dx =>
      if getPix g (y + dy) (x + dx) = 1 then 1 else 0)).sum)).sum

/-! ## Regions -/

/-- An axis-aligned box with integer coordinates. -/
structure Rect where
  x : ℤ
  y : ℤ
  width : ℤ
  height : ℤ
deriving DecidableEq

/-- Embeds the `Region` record (track/region.py is not under src/; fields per
the spec data model: box, mass, pixel_variance, component id, frame number,
was_cropped flag). -/
structure Region where
  x : ℤ
  y : ℤ
  width : ℤ
  height : ℤ
  mass : ℕ
  pixel_variance : ℚ
  id : ℕ
  frame_number : ℕ
  was_cropped : Bool
deriving DecidableEq

/-- Modelled from the spec: `Region.crop` (from track/region.py, not under
src/) clips the box into the crop rectangle ("Region boxes are always clipped
into the valid interior crop rectangle"), with degenerate overlaps clamped to
zero extent. -/
def cropRect (crop r : Rect) : Rect :=
  let x := max crop.x r.x
  let y := max crop.y r.y
  let right := min (crop.x + crop.width) (r.x + r.width)
  let bottom := min (crop.y + crop.height) (r.y + r.height)
  ⟨x, y, max 0 (right - x), max 0 (bottom - y)⟩

/-- Sub-frame of a rational frame below a box, flattened; embeds
`region.subimage(delta_frame)` for boxes already clipped inside the frame. -/
def subgridQ (g : QGrid) (r : Rect) : List ℚ :=
  ((List.range r.height.toNat).map (fun dy =>
    (List.range r.width.toNat).map (fun dx =>
      getPixQ g (r.y.toNat + dy) (r.x.toNat + dx)))).flatten

/-- Embeds `np.var`: the population variance, 0 on an empty input. -/
def npVar (xs : List ℚ) : ℚ :=
  if xs.length = 0 then 0
  else
    let m := xs.sum / (xs.length : ℚ)
    ((xs.map (fun v => (v - m) ^ 2)).sum) / (xs.length : ℚ)

/-- Absolute pixelwise difference of two equally sized frames; embeds
`np.abs(np.float32(filtered) - np.float32(prev_filtered))`. -/
def deltaFrame (a b : QGrid) : QGrid :=
  (List.range (gridRows a)).map (fun y =>
    (List.range (gridCols a)).map (fun x => |getPixQ a y x - getPixQ b y x|))

/-- Configuration fields read by `get_regions_of_interest`. -/
structure DetectConfig where
  edge_pixels : ℕ
  dilation_pixels : ℕ
  frame_padding : ℕ
  cropped_regions_strategy : String
  aoi_pixel_variance : ℚ
  aoi_min_mass : ℚ
deriving DecidableEq

/-- Embeds the cropped-regions-strategy branch of the region loop
(src/track/trackextractor.py lines 574-591) for a single region: `.ok true`
keeps it, `.ok false` discards it, `.error` is the ValueError raised on an
unrecognized strategy.  `old` is the padded pre-crop region, `r` the cropped
one. -/
def cropPolicyKeeps (strategy : String) (old r : Region) : Except String Bool :=
  if strategy = "cautious" then
    let cwf : ℚ := ((old.width - r.width : ℤ) : ℚ) / ((old.width : ℤ) : ℚ)
    let chf : ℚ := ((old.height - r.height : ℤ) : ℚ) / ((old.height : ℤ) : ℚ)
    if 1 / 4 < cwf ∨ 1 / 4 < chf then .ok false else .ok true
  else if strategy = "none" then
    if r.was_cropped then .ok false else .ok true
  else if strategy ≠ "all" then
    .error ("Invalid mode for CROPPED_REGIONS_STRATEGY, expected [\x27all\x27,\x27cautious\x27,\x27none\x27] but found "
      ++ strategy)
  else .ok true

/-- The Region as constructed from the component statistics of the dilated
mask, with mass recomputed from the pre-dilation mask and the box padded and
translated from edgeless to full-frame coordinates (lines 550-568). -/
def paddedRegion (cfg : DetectConfig) (thresh : Grid) (frame_on i : ℕ)
    (st : CompStat) : Region :=
  { x := (st.x : ℤ) + (cfg.edge_pixels : ℤ) - (cfg.frame_padding : ℤ),
    y := (st.y : ℤ) + (cfg.edge_pixels : ℤ) - (cfg.frame_padding : ℤ),
    width := (st.width : ℤ) + (cfg.frame_padding : ℤ) * 2,
    height := (st.height : ℤ) + (cfg.frame_padding : ℤ) * 2,
    mass := sumIn thresh st.x st.y st.width st.height,
    pixel_variance := 0, id := i, frame_number := frame_on, was_cropped := false }

/-- The padded Region after clipping into the crop rectangle, with the
`was_cropped` flag recording whether clipping changed the box
(lines 570-572). -/
def croppedRegion (cfg : DetectConfig) (thresh : Grid) (crop : Rect)
    (frame_on i : ℕ) (st : CompStat) : Region :=
  let r2 := paddedRegion cfg thresh frame_on i st
  let cb := cropRect crop ⟨r2.x, r2.y, r2.width, r2.height⟩
  { r2 with x := cb.x, y := cb.y, width := cb.width, height := cb.height,
            was_cropped := decide (cb ≠ ⟨r2.x, r2.y, r2.width, r2.height⟩) }

/-- Embeds one iteration of the region loop of `get_regions_of_interest`
(lines 550-604): build the Region from the component statistics of the
dilated mask, recompute mass from the pre-dilation mask, pad and translate,
crop, apply the border policy, compute the pixel variance from the delta
frame when one exists, and apply the area-of-interest noise filter. -/
def buildRegion (cfg : DetectConfig) (thresh : Grid) (delta : Option QGrid)
    (crop : Rect) (frame_on i : ℕ) (st : CompStat) : Except String (Option Region) :=
  let r2 := paddedRegion cfg thresh frame_on i st
  let r3 := croppedRegion cfg thresh crop frame_on i st
  match cropPolicyKeeps cfg.cropped_regions_strategy r2 r3 with
  | .error e => .error e
  | .ok false => .ok none
  | .ok true =>
      let r4 := match delta with
        | none => r3
        | some d =>
            { r3 with pixel_variance := npVar (subgridQ d ⟨r3.x, r3.y, r3.width, r3.height⟩) }
      if r4.pixel_variance < cfg.aoi_pixel_variance ∧ (r4.mass : ℚ) < cfg.aoi_min_mass
      then .ok none else .ok (some r4)

/-- The region loop over the labelled components, propagating the first
ValueError as the source does. -/
def regionsLoop (cfg : DetectConfig) (thresh : Grid) (delta : Option QGrid)
    (crop : Rect) (frame_on : ℕ) : List (ℕ × CompStat) → Except String (List Region)
  | [] => .ok []
  | (i, st) :: rest =>
      match buildRegion cfg thresh delta crop frame_on i st with
      | .error e => .error e
      | .ok none => regionsLoop cfg thresh delta crop frame_on rest
      | .ok (some r) =>
          match regionsLoop cfg thresh delta crop frame_on rest with
          | .error e => .error e
          | .ok rs => .ok (r :: rs)

/-- The blurred, thresholded (pre-dilation) mask of a filtered frame, in
edgeless coordinates: lines 525-529. -/
def threshOf (cfg : DetectConfig) (threshold : ℚ) (filtered : QGrid) : Grid :=
  blur_and_return_as_mask
    ((List.range (gridRows filtered - 2 * cfg.edge_pixels)).map (fun dy =>
      (List.range (gridCols filtered - 2 * cfg.edge_pixels)).map (fun dx =>
        getPixQ filtered (cfg.edge_pixels + dy) (cfg.edge_pixels + dx))))
    threshold

/-- The dilated mask: lines 530-536 (dilation only when `dilation_pixels`
is positive). -/
def dilatedOf (cfg : DetectConfig) (threshold : ℚ) (filtered : QGrid) : Grid :=
  if 0 < cfg.dilation_pixels
  then dilateGrid cfg.dilation_pixels (threshOf cfg threshold filtered)
  else threshOf cfg threshold filtered

/-- Label of a cell among listed components (1-based), 0 for background. -/
def labelAt (comps : List (List (ℕ × ℕ))) (y x : ℕ) : ℕ :=
  match comps.findIdx? (fun c => decide ((y, x) ∈ c)) with
  | some k => k + 1
  | none => 0

/-- The full-size label mask with the edge margin restored (lines 539-542). -/
def fullMask (rows cols edge : ℕ) (comps : List (List (ℕ × ℕ))) : Grid :=
  (List.range rows).map (fun y =>
    (List.range cols).map (fun x =>
      if edge ≤ y ∧ y < rows - edge ∧ edge ≤ x ∧ x < cols - edge
      then labelAt comps (y - edge) (x - edge) else 0))

/-- The box a surviving region ends up with, as a function of the component
statistics: pad by `frame_padding`, translate from edgeless to full-frame
coordinates, and clip into the crop rectangle (lines 564-571). -/
def paddedCropBox (cfg : DetectConfig) (crop : Rect) (st : CompStat) : Rect :=
  cropRect crop
    ⟨(st.x : ℤ) + (cfg.edge_pixels : ℤ) - (cfg.frame_padding : ℤ),
     (st.y : ℤ) + (cfg.edge_pixels : ℤ) - (cfg.frame_padding : ℤ),
     (st.width : ℤ) + (cfg.frame_padding : ℤ) * 2,
     (st.height : ℤ) + (cfg.frame_padding : ℤ) * 2⟩

/-- Embeds `TrackExtractor.get_regions_of_interest` (lines 506-606).  The
crop rectangle is `Rectangle(edge, edge, W - 2*edge, H - 2*edge)` as set up in
`load`.  Returns the surviving regions and the full-size label mask, or the
ValueError message for an unrecognized cropped-regions strategy. -/
def get_regions_of_interest (cfg : DetectConfig) (threshold : ℚ) (frame_on : ℕ)
    (filtered : QGrid) (prev_filtered : Option QGrid) :
    Except String (List Region × Grid) :=
  let delta := prev_filtered.map (fun p => deltaFrame filtered p)
  let crop : Rect := ⟨(cfg.edge_pixels : ℤ), (cfg.edge_pixels : ℤ),
    (gridCols filtered : ℤ) - 2 * (cfg.edge_pixels : ℤ),
    (gridRows filtered : ℤ) - 2 * (cfg.edge_pixels : ℤ)⟩
  let thresh := threshOf cfg threshold filtered
  let comps := componentsOf (dilatedOf cfg threshold filtered)
  let mask := fullMask (gridRows filtered) (gridCols filtered) cfg.edge_pixels comps
  match regionsLoop cfg thresh delta crop frame_on
      ((comps.map compStats).enum.map (fun p => (p.1 + 1, p.2))) with
  | .error e => .error e
  | .ok regions => .ok (regions, mask)

/-! ## Track matching (`apply_matchings`) -/

/-- The matcher's view of a region: an identity (list position, standing in
for Python object identity in the `used_regions` set), the box, and the
mass. -/
structure MRegion where
  rid : ℕ
  rect : Rect
  mass : ℕ
deriving DecidableEq

/-- The matcher's view of a track: the stable id (standing in for Python
object identity in the `matched_tracks` set), the mass and latest box (per
the spec data model these are the last appended region's), the miss counter
and the start frame. -/
structure MTrack where
  tid : ℕ
  mass : ℕ
  bounds : Rect
  frames_since_target_seen : ℕ
  start_frame : ℕ
deriving DecidableEq

/-- Modelled from the spec: `Rectangle.overlap_area` (ml_tools/tools.py, not
under src/) — the area of the intersection of two axis-aligned boxes, zero
when they are disjoint. -/
def overlap_area (a b : Rect) : ℤ :=
  max 0 (min (a.x + a.width) (b.x + b.width) - max a.x b.x) *
  max 0 (min (a.y + a.height) (b.y + b.height) - max a.y b.y)

/-- Modelled from the spec: `Track.add_frame` (track/track.py, not under
src/) appends the region to the track, so the track's latest box and mass
become the region's; the miss counter and blank frames are handled explicitly
by the matcher, as in the source. -/
def add_frame (t : MTrack) (r : MRegion) : MTrack :=
  { t with bounds := r.rect, mass := r.mass }

/-- Embeds `np.clip(x, lo, hi)` on naturals. -/
def npClipNat (x lo hi : ℕ) : ℕ := min hi (max lo x)

/-- Embeds the test `distance > np.clip(7 * (track.mass ** 0.5), 30, 95)` of
line 345/348 without real square roots: for `d > 30 ≥ 0` the comparison
`d > 7 * sqrt mass` is equivalent to `d^2 > 49 * mass`, and
`d > max 30 (min 95 s)` iff `d > 30` and (`d > 95` or `d > s`). -/
def exceedsMaxDistance (d : ℚ) (mass : ℕ) : Bool :=
  decide (30 < d) && (decide (95 < d) || decide ((49 * mass : ℚ) < d ^ 2))

/-- A candidate entry of the `scores` list: `(distance, track, region)`. -/
abbrev ScoreE := ℚ × MTrack × MRegion

/-- Embeds one iteration of the scoring loop (lines 339-352): compute the
pair's score, rebind `size_change` to `np.clip(track.mass, 50, 500)`
(shadowing the score's second component exactly as the source does), skip the
pair when the distance exceeds the clipped bound, skip it when
`size_change > size_change` (the inert self-comparison), and otherwise admit
`(distance, track, region)`.  `sf` stands for the external
`Track.get_track_region_score(region, moving_vel_thresh)` (track/track.py,
not under src/), returning `(distance, size_change)`. -/
def scorePair (sf : MTrack → MRegion → ℚ → ℚ × ℚ) (moving_vel_thresh : ℚ)
    (t : MTrack) (r : MRegion) : Option ScoreE :=
  let distance := (sf t r moving_vel_thresh).1
  let size_change := npClipNat t.mass 50 500
  if exceedsMaxDistance distance t.mass then none
  else if size_change > size_change then none
  else some (distance, t, r)

/-- The scoring loop variant with the inert self-comparison removed — the
explicit alternative the spec asks an implementer to weigh. -/
def scorePairNoSizeTest (sf : MTrack → MRegion → ℚ → ℚ × ℚ)
    (moving_vel_thresh : ℚ) (t : MTrack) (r : MRegion) : Option ScoreE :=
  let distance := (sf t r moving_vel_thresh).1
  if exceedsMaxDistance distance t.mass then none
  else some (distance, t, r)

/-- The full `scores` list: tracks outer, regions inner (lines 338-352). -/
def buildScores (sf : MTrack → MRegion → ℚ → ℚ × ℚ) (moving_vel_thresh : ℚ)
    (active : List MTrack) (regions : List MRegion) : List ScoreE :=
  (active.map (fun t => regions.filterMap (fun r =>
    scorePair sf moving_vel_thresh t r))).flatten

/-- The `scores` list with the inert test removed. -/
def buildScoresNoSizeTest (sf : MTrack → MRegion → ℚ → ℚ × ℚ)
    (moving_vel_thresh : ℚ) (active : List MTrack) (regions : List MRegion) :
    List ScoreE :=
  (active.map (fun t => regions.filterMap (fun r =>
    scorePairNoSizeTest sf moving_vel_thresh t r))).flatten

/-- Stable ascending insertion by distance: a new entry goes after every
entry whose distance is less than or equal to its own. -/
def insertScore (x : ScoreE) : List ScoreE → List ScoreE
  | [] => [x]
  | y :: ys => if x.1 < y.1 then x :: y :: ys else y :: insertScore x ys

/-- Embeds `scores.sort(key=lambda record: record[0])` (line 359): Python's
sort is stable, and a left-to-right insertion sort that inserts after equal
keys is extensionally equal to every stable sort by the same key. -/
def sortScores (l : List ScoreE) : List ScoreE :=
  l.foldl (fun acc x => insertScore x acc) []

/-- Embeds the greedy commit loop (lines 362-369): walk the sorted scores,
skip entries whose track or region is already consumed, and commit the rest
in order. -/
def greedyMatch : List ScoreE → List ℕ → List ℕ → List ScoreE
  | [], _, _ => []
  | e :: rest, matched, used =>
      if e.2.1.tid ∈ matched ∨ e.2.2.rid ∈ used then greedyMatch rest matched used
      else e :: greedyMatch rest (e.2.1.tid :: matched) (e.2.2.rid :: used)

/-- Largest element of a list of integers (`max(overlaps)`, only evaluated on
nonempty lists by the source). -/
def maxZ : List ℤ → ℤ
  | [] => 0
  | x :: xs => xs.foldl max x

/-- Embeds the new-track loop (lines 371-386): for each region not consumed
by matching, compute its overlap with every currently active track's latest
box — the source reads `self.active_tracks`, which already reflects this
frame's `add_frame` updates and grows as new tracks are appended — and spawn
a new track unless some overlap exceeds a quarter of the region's own area
(`Region.area`, modelled from the spec as box width times height).  Returns
the grown active list, the new tracks' ids, the created tracks, and the next
fresh track id (`Track._track_id`). -/
def newTrackPass (used : List ℕ) (frame_on : ℕ) :
    List MRegion → List MTrack → List ℕ → List MTrack → ℕ →
    List MTrack × List ℕ × List MTrack × ℕ
  | [], active, ntids, created, nid => (active, ntids, created, nid)
  | r :: rs, active, ntids, created, nid =>
      if r.rid ∈ used then newTrackPass used frame_on rs active ntids created nid
      else
        let overlaps := active.map (fun t => overlap_area t.bounds r.rect)
        if overlaps ≠ [] ∧ ((r.rect.width * r.rect.height : ℤ) : ℚ) * (1 / 4) < ((maxZ overlaps : ℤ) : ℚ) then
          newTrackPass used frame_on rs active ntids created nid
        else
          let t : MTrack := { tid := nid, mass := r.mass, bounds := r.rect,
                              frames_since_target_seen := 0, start_frame := frame_on }
          newTrackPass used frame_on rs (active ++ [t]) (ntids ++ [nid])
            (created ++ [t]) (nid + 1)

/-- Configuration fields read by `apply_matchings`. -/
structure MatchConfig where
  moving_vel_thresh : ℚ
  remove_track_after_frames : ℕ
deriving DecidableEq

/-- The observable outcome of one `apply_matchings` step: the surviving
active tracks, the committed `(track id, region id, distance)` assignments in
commit order, the tracks created this frame, the ids of tracks that received
a blank frame and a miss increment, and the next fresh track id. -/
structure MatchResult where
  active : List MTrack
  commits : List (ℕ × ℕ × ℚ)
  created : List MTrack
  blanks : List ℕ
  next_id : ℕ
deriving DecidableEq

/-- Embeds `TrackExtractor.apply_matchings` (lines 333-403): score all
(track, region) pairs, sort stably by distance, commit greedily, update the
matched tracks, spawn tracks for unmatched non-overlapping regions, give
every other active track a blank frame and a miss increment, and drop tracks
whose miss counter reached `remove_track_after_frames`. -/
def apply_matchings (cfg : MatchConfig) (sf : MTrack → MRegion → ℚ → ℚ × ℚ)
    (active : List MTrack) (regions : List MRegion) (frame_on next_id : ℕ) :
    MatchResult :=
  let committed := greedyMatch (sortScores (buildScores sf cfg.moving_vel_thresh active regions)) [] []
  let matched := committed.map (fun e => e.2.1.tid)
  let used := committed.map (fun e => e.2.2.rid)
  let active1 := active.map (fun t =>
    match committed.find? (fun e => decide (e.2.1.tid = t.tid)) with
    | some e => add_frame t e.2.2
    | none => t)
  let grown : List MTrack × List ℕ × List MTrack × ℕ :=
    newTrackPass used frame_on regions active1 [] [] next_id
  let active2 : List MTrack := grown.1
  let ntids : List ℕ := grown.2.1
  let blanks := (active2.filter (fun t =>
    !matched.contains t.tid && !ntids.contains t.tid)).map (fun t => t.tid)
  let active3 := active2.map (fun t =>
    if matched.contains t.tid || ntids.contains t.tid then t
    else { t with frames_since_target_seen := t.frames_since_target_seen + 1 })
  let active4 := active3.filter (fun t =>
    decide (t.frames_since_target_seen < cfg.remove_track_after_frames))
  { active := active4,
    commits := committed.map (fun e => (e.2.1.tid, e.2.2.rid, e.1)),
    created := grown.2.2.1,
    blanks := blanks,
    next_id := grown.2.2.2 }

/-- `apply_matchings` with the inert size-change test removed, otherwise
identical. -/
def apply_matchings_no_size_test (cfg : MatchConfig)
    (sf : MTrack → MRegion → ℚ → ℚ × ℚ) (active : List MTrack)
    (regions : List MRegion) (frame_on next_id : ℕ) : MatchResult :=
  let committed := greedyMatch (sortScores (buildScoresNoSizeTest sf cfg.moving_vel_thresh active regions)) [] []
  let matched := committed.map (fun e => e.2.1.tid)
  let used := committed.map (fun e => e.2.2.rid)
  let active1 := active.map (fun t =>
    match committed.find? (fun e => decide (e.2.1.tid = t.tid)) with
    | some e => add_frame t e.2.2
    | none => t)
  let grown : List MTrack × List ℕ × List MTrack × ℕ :=
    newTrackPass used frame_on regions active1 [] [] next_id
  let active2 : List MTrack := grown.1
  let ntids : List ℕ := grown.2.1
  let blanks := (active2.filter (fun t =>
    !matched.contains t.tid && !ntids.contains t.tid)).map (fun t => t.tid)
  let active3 := active2.map (fun t =>
    if matched.contains t.tid || ntids.contains t.tid then t
    else { t with frames_since_target_seen := t.frames_since_target_seen + 1 })
  let active4 := active3.filter (fun t =>
    decide (t.frames_since_target_seen < cfg.remove_track_after_frames))
  { active := active4,
    commits := committed.map (fun e => (e.2.1.tid, e.2.2.rid, e.1)),
    created := grown.2.2.1,
    blanks := blanks,
    next_id := grown.2.2.2 }

/-! ## Track filtering (`filter_tracks`) -/

/-- The per-track statistics record returned by `Track.get_stats`
(track/track.py, not under src/): the composite score, maximum offset,
delta standard deviation and average mass the filter reads. -/
structure TrackStats where
  score : ℚ
  max_offset : ℚ
  delta_std : ℚ
  average_mass : ℚ
deriving DecidableEq

/-- The filter's view of a completed track: its id, its post-trim frame
count (`len(track)` after `Track.trim`, a method not under src/), and its
statistics. -/
structure FTrack where
  tid : ℕ
  frames : ℕ
  stats : TrackStats
deriving DecidableEq

/-- Configuration fields read by `filter_tracks`. -/
structure FilterConfig where
  track_overlap_ratio : ℚ
  min_duration_secs : ℚ
  track_min_offset : ℚ
  track_min_delta : ℚ
  track_min_mass : ℚ
deriving DecidableEq

/-- Embeds lines 429-435: the highest `Track.get_overlap_ratio` (a method of
track/track.py, not under src/, supplied here as the pairwise function
`ratio`) of a track against every other track, starting from 0 and skipping
the track itself (Python object identity, stood in for by the id). -/
def highestOverlap (ratio : FTrack → FTrack → ℚ) (tracks : List FTrack)
    (t : FTrack) : ℚ :=
  tracks.foldl (fun h o => if o.tid = t.tid then h else max (ratio t o) h) 0

/-- Stable descending insertion by score: a new entry goes after every entry
whose score is greater than or equal to its own, embedding
`track_stats.sort(reverse=True, key=lambda record: record[0].score)`
(line 411; Python's sort is stable). -/
def insertByScoreDesc (x : FTrack) : List FTrack → List FTrack
  | [] => [x]
  | y :: ys => if y.stats.score < x.stats.score then x :: y :: ys
               else y :: insertByScoreDesc x ys

/-- Stable descending sort of the tracks by score. -/
def sortByScoreDesc (l : List FTrack) : List FTrack :=
  l.foldl (fun acc x => insertByScoreDesc x acc) []

/-- Embeds the accept/reject loop of `filter_tracks` (lines 443-486): walk
the score-sorted tracks and reject on too much overlap, too few frames,
too little offset, too little delta or too little mass, in source order;
every rejection carries the source's reason string. -/
def classifyTracks (cfg : FilterConfig) (ratio : FTrack → FTrack → ℚ)
    (all_tracks : List FTrack) :
    List FTrack → List FTrack × List (String × FTrack)
  | [] => ([], [])
  | t :: rest =>
      let r := classifyTracks cfg ratio all_tracks rest
      if cfg.track_overlap_ratio < highestOverlap ratio all_tracks t then
        (r.1, ("Track filtered.  Too much overlap", t) :: r.2)
      else if (t.frames : ℚ) < cfg.min_duration_secs * 9 then
        (r.1, ("Track filtered.  Too short", t) :: r.2)
      else if t.stats.max_offset < cfg.track_min_offset then
        (r.1, ("Track filtered.  Didn't move", t) :: r.2)
      else if t.stats.delta_std < cfg.track_min_delta then
        (r.1, ("Track filtered.  Too static", t) :: r.2)
      else if t.stats.average_mass < cfg.track_min_mass then
        (r.1, ("Track filtered.  Mass too small", t) :: r.2)
      else (t :: r.1, r.2)

/-- Embeds `TrackExtractor.filter_tracks` (lines 405-504) from the point the
per-track statistics exist: sort by score descending (stable), apply the
rejection filters, then apply the max-tracks cap.  The cap reproduces the
source exactly: the kept list is truncated first, and the "Too many tracks"
entries are then built from `self.tracks[self.max_tracks:]` of the *already
truncated* list — which is always empty.  Returns the kept tracks and the
rejected-track list with reasons. -/
def filter_tracks (cfg : FilterConfig) (max_tracks : Option ℕ)
    (ratio : FTrack → FTrack → ℚ) (tracks : List FTrack) :
    List FTrack × List (String × FTrack) :=
  let sorted := sortByScoreDesc tracks
  let classified := classifyTracks cfg ratio tracks sorted
  let good := classified.1
  match max_tracks with
  | none => (good, classified.2)
  | some n =>
      if n < good.length then
        (good.take n,
         classified.2 ++ ((good.take n).drop n).map (fun t => ("Too many tracks", t)))
      else (good, classified.2)

/-- The max-tracks cap the way the spec describes it: the dropped remainder
of the *untruncated* surviving list is recorded as rejected. -/
def filter_tracks_spec_cap (cfg : FilterConfig) (max_tracks : Option ℕ)
    (ratio : FTrack → FTrack → ℚ) (tracks : List FTrack) :
    List FTrack × List (String × FTrack) :=
  let sorted := sortByScoreDesc tracks
  let classified := classifyTracks cfg ratio tracks sorted
  let good := classified.1
  match max_tracks with
  | none => (good, classified.2)
  | some n =>
      if n < good.length then
        (good.take n,
         classified.2 ++ (good.drop n).map (fun t => ("Too many tracks", t)))
      else (good, classified.2)

/-! ## Clip-level validation (`extract_tracks`) -/

/-- The background statistics record produced by `analyse_background`
(lines 650-692). -/
structure BgStats where
  threshold : ℚ
  average_delta : ℚ
  max_temp : ℚ
  min_temp : ℚ
  mean_temp : ℚ
  background_deviation : ℚ
deriving DecidableEq

/-- Configuration fields read by the validation prefix of
`extract_tracks`. -/
structure ExtractConfig where
  background_calc : String
  dynamic_thresh : Bool
  temp_thresh : ℚ
  max_mean_temperature_threshold : ℚ
  max_temperature_range_threshold : ℚ
deriving DecidableEq

/-- The extractor state the validation touches: the rejection reason, the
(possibly dynamically lowered) temperature threshold, the preview flag, and
the track bookkeeping lists (held abstractly by id). -/
structure ExtractState where
  reject_reason : Option String
  temp_thresh : ℚ
  background_is_preview : Bool
  tracks : List ℕ
  active_tracks : List ℕ
  region_history : List ℕ
deriving DecidableEq

/-- The extractor state right after `__init__` (lines 43-106): no rejection
reason, preview flag off, and empty track bookkeeping lists. -/
def initExtractState (temp_thresh : ℚ) : ExtractState :=
  { reject_reason := none, temp_thresh := temp_thresh,
    background_is_preview := false, tracks := [], active_tracks := [],
    region_history := [] }

/-- Outcome of the validation prefix: a whole-clip rejection (the method
returns False with `reject_reason` set) or the fall-through to the per-frame
loop. -/
inductive ExtractDecision
  | rejected (reason : String) (st : ExtractState)
  | proceed (st : ExtractState)
deriving DecidableEq

/-- Embeds Python fixed-point formatting with one decimal (`"{:.1f}"`),
rounding half to even as CPython does on exactly representable values. -/
def fmt1 (q : ℚ) : String :=
  let n := pyRound (q * 10)
  (if n < 0 then "-" else "") ++ toString (n.natAbs / 10) ++ "." ++ toString (n.natAbs % 10)

/-- Embeds the clip-level validation prefix of `TrackExtractor.extract_tracks`
(lines 159-216): the assert that the clip was loaded (an AssertionError on an
empty frame list, modelled as `.error`), the preview-background and dynamic
threshold configuration updates, and the four whole-clip rejection checks in
source order — too short, non-static, mean temperature too high, temperature
range too wide.  `.rejected r st` models `return False` with
`reject_reason = r`; `.proceed st` models falling through to the per-frame
tracking loop (embedded separately as `get_filtered`,
`get_regions_of_interest` and `apply_matchings`) after resetting the track
bookkeeping (lines 219-222).  The background estimation itself
(`process_background`) only feeds the `stats`/`is_static` inputs and the
background frame, which no rejection string under claim depends on;
`fmt1` stands in for Python float rendering inside the non-claimed reason
strings, while the "Clip too short" string is exact. -/
def extract_tracks_validation (cfg : ExtractConfig) (preview_secs : ℕ)
    (reject_non_static_clips : Bool) (stats : BgStats) (is_static : Bool)
    (num_frames : ℕ) (st0 : ExtractState) : Except String ExtractDecision :=
  if num_frames = 0 then .error "Must call load before extract tracks"
  else
    let st1 := { st0 with reject_reason := none }
    let st2 := if cfg.background_calc = "preview" && decide (0 < preview_secs)
               then { st1 with background_is_preview := true } else st1
    let tth := if cfg.dynamic_thresh then min cfg.temp_thresh stats.mean_temp
               else cfg.temp_thresh
    let st3 := { st2 with temp_thresh := tth }
    if num_frames ≤ 9 then
      let r := "Clip too short " ++ toString num_frames ++ " frames"
      .ok (.rejected r { st3 with reject_reason := some r })
    else if reject_non_static_clips && !is_static then
      let r := "Non static background deviation=" ++ fmt1 stats.background_deviation
      .ok (.rejected r { st3 with reject_reason := some r })
    else if cfg.max_mean_temperature_threshold ≠ 0 ∧
        cfg.max_mean_temperature_threshold < stats.mean_temp then
      let r := "Mean temp too high " ++ fmt1 stats.mean_temp
      .ok (.rejected r { st3 with reject_reason := some r })
    else if cfg.max_temperature_range_threshold ≠ 0 ∧
        cfg.max_temperature_range_threshold < stats.max_temp - stats.min_temp then
      let r := "Temp delta too high " ++ fmt1 (stats.max_temp - stats.min_temp)
      .ok (.rejected r { st3 with reject_reason := some r })
    else
      .ok (.proceed
        { st3 with
          tracks := []
          active_tracks := []
          region_history := [] })

/-! ## Concrete inputs used by witnesses and counterexamples -/

/-- A 5x5 frame with a single hot pixel at its centre. -/
def spikeFrame : QGrid :=
  [[0, 0, 0, 0, 0], [0, 0, 0, 0, 0], [0, 0, 256, 0, 0], [0, 0, 0, 0, 0], [0, 0, 0, 0, 0]]

/-- An all-zero 3x3 frame. -/
def zeroFrame3 : QGrid := [[0, 0, 0], [0, 0, 0], [0, 0, 0]]

/-- Detector configuration with heavy dilation (padding
`max(0, max(3, 3) - 3) = 0`) and the "all" border policy. -/
def cfgDilate : DetectConfig :=
  { edge_pixels := 0, dilation_pixels := 3, frame_padding := 0,
    cropped_regions_strategy := "all", aoi_pixel_variance := 5, aoi_min_mass := 1 }

/-- Detector configuration with an unrecognized cropped-regions strategy. -/
def cfgBadStrategy : DetectConfig :=
  { edge_pixels := 0, dilation_pixels := 0, frame_padding := 3,
    cropped_regions_strategy := "weird", aoi_pixel_variance := 1, aoi_min_mass := 1 }

/-- A trivially scoring external distance function: all pairs at distance 0. -/
def sfZero : MTrack → MRegion → ℚ → ℚ × ℚ := fun _ _ _ => (0, 0)

/-- A matcher configuration keeping missed tracks around for 9 frames. -/
def cfgMatch : MatchConfig := { moving_vel_thresh := 2, remove_track_after_frames := 9 }

/-- A unit box at the origin. -/
def rectUnit : Rect := { x := 0, y := 0, width := 4, height := 4 }

/-- A track sitting on `rectUnit`. -/
def trackA : MTrack :=
  { tid := 1, mass := 4, bounds := rectUnit, frames_since_target_seen := 0, start_frame := 0 }

/-- A region coinciding with `trackA`'s latest box. -/
def regionA : MRegion := { rid := 0, rect := rectUnit, mass := 4 }

/-- A track-filter configuration with all thresholds at zero (keeping every
track) and the overlap limit at one. -/
def cfgFilter : FilterConfig :=
  { track_overlap_ratio := 1, min_duration_secs := 0, track_min_offset := 0,
    track_min_delta := 0, track_min_mass := 0 }

/-- A track passing every filter with score `s`. -/
def passTrack (i : ℕ) (s : ℚ) : FTrack :=
  { tid := i, frames := 20,
    stats := { score := s, max_offset := 10, delta_std := 10, average_mass := 10 } }

/-- A clip-validation configuration with dynamic thresholding off and the
temperature guards disabled (falsy zero). -/
def cfgExtract : ExtractConfig :=
  { background_calc := "preview", dynamic_thresh := false, temp_thresh := 40,
    max_mean_temperature_threshold := 0, max_temperature_range_threshold := 0 }

/-- Arbitrary background statistics for the validation witness. -/
def statsBg : BgStats :=
  { threshold := 20, average_delta := 1, max_temp := 4000, min_temp := 3000,
    mean_temp := 3400, background_deviation := 3 }

/-- The blurred, thresholded mask of `spikeFrame` at threshold 35: a single
foreground pixel. -/
def spikeThresh : Grid :=
  [[0, 0, 0, 0, 0], [0, 0, 0, 0, 0], [0, 0, 1, 0, 0], [0, 0, 0, 0, 0], [0, 0, 0, 0, 0]]

/-- The label mask of the dilated spike frame: one component covering the
whole frame. -/
def spikeMask : Grid :=
  [[1, 1, 1, 1, 1], [1, 1, 1, 1, 1], [1, 1, 1, 1, 1], [1, 1, 1, 1, 1], [1, 1, 1, 1, 1]]

/-- The single region the detector emits for the spike frame: box from the
dilated component, mass 1 from the pre-dilation mask. -/
def spikeRegion : Region :=
  { x := 0, y := 0, width := 5, height := 5, mass := 1, pixel_variance := 0,
    id := 1, frame_number := 0, was_cropped := false }

/-- The cells of the single dilated component of the spike frame, in flood
discovery order. -/
def spikeComp : List (ℕ × ℕ) :=
  [(4, 4), (3, 4), (2, 4), (1, 4), (0, 4), (4, 3), (4, 2), (4, 1), (4, 0), (3, 3),
   (2, 3), (1, 3), (0, 3), (3, 2), (3, 1), (3, 0), (2, 2), (1, 2), (0, 2), (2, 1),
   (2, 0), (1, 1), (0, 1), (1, 0), (0, 0)]

/-! ## Helper lemmas -/

theorem relu_nonneg (x : ℚ) : 0 ≤ relu x := by
  unfold relu; split
  · exact le_refl 0
  · linarith [not_lt.mp (by assumption)]

theorem croppedRegion_pixel_variance (cfg : DetectConfig) (thresh : Grid)
    (crop : Rect) (frame_on i : ℕ) (st : CompStat) :
    (croppedRegion cfg thresh crop frame_on i st).pixel_variance = 0 := by
  simp [croppedRegion, paddedRegion]

theorem croppedRegion_mass (cfg : DetectConfig) (thresh : Grid)
    (crop : Rect) (frame_on i : ℕ) (st : CompStat) :
    (croppedRegion cfg thresh crop frame_on i st).mass =
      sumIn thresh st.x st.y st.width st.height := by
  simp [croppedRegion, paddedRegion]

theorem foldl_max_le_init (ys : List ℤ) (a : ℤ) : a ≤ ys.foldl max a := by
  induction ys generalizing a with
  | nil => simp
  | cons y ys ih => exact le_trans (le_max_left a y) (ih (max a y))

theorem le_foldl_max_of_mem {ys : List ℤ} {x : ℤ} (a : ℤ) (h : x ∈ ys) :
    x ≤ ys.foldl max a := by
  induction ys generalizing a with
  | nil => cases h
  | cons y ys ih =>
      rcases List.mem_cons.mp h with rfl | h
      · exact le_trans (le_max_right a x) (foldl_max_le_init ys (max a x))
      · exact ih (max a y) h

theorem le_maxZ_of_mem {l : List ℤ} {x : ℤ} (h : x ∈ l) : x ≤ maxZ l := by
  cases l with
  | nil => cases h
  | cons y ys =>
      rcases List.mem_cons.mp h with rfl | h
      · exact foldl_max_le_init ys x
      · exact le_foldl_max_of_mem y h

theorem foldl_max_eq_or_mem (ys : List ℤ) (a : ℤ) :
    ys.foldl max a = a ∨ ys.foldl max a ∈ ys := by
  induction ys generalizing a with
  | nil => exact Or.inl rfl
  | cons y ys ih =>
      rcases ih (max a y) with h | h
      · rcases max_choice a y with hm | hm
        · exact Or.inl (by rw [List.foldl_cons, h, hm])
        · exact Or.inr (by rw [List.foldl_cons, h, hm]; exact List.mem_cons_self y ys)
      · exact Or.inr (List.mem_cons_of_mem y h)

theorem maxZ_mem {l : List ℤ} (h : l ≠ []) : maxZ l ∈ l := by
  cases l with
  | nil => exact absurd rfl h
  | cons y ys =>
      rcases foldl_max_eq_or_mem ys y with h' | h'
      · rw [maxZ, h']; exact List.mem_cons_self y ys
      · exact List.mem_cons_of_mem y (by rw [maxZ]; exact h')

theorem mem_insertScore {x e : ScoreE} {l : List ScoreE} :
    x ∈ insertScore e l ↔ x = e ∨ x ∈ l := by
  induction l with
  | nil => simp [insertScore]
  | cons y ys ih =>
      by_cases h : e.1 < y.1
      · simp only [insertScore, if_pos h, List.mem_cons]
      · simp only [insertScore, if_neg h, List.mem_cons, ih]
        tauto

theorem pairwise_insertScore {e : ScoreE} {l : List ScoreE}
    (h : l.Pairwise (fun a b => a.1 ≤ b.1)) :
    (insertScore e l).Pairwise (fun a b => a.1 ≤ b.1) := by
  induction l with
  | nil => simp [insertScore]
  | cons y ys ih =>
      rcases List.pairwise_cons.mp h with ⟨hy, hys⟩
      by_cases hc : e.1 < y.1
      · rw [insertScore, if_pos hc]
        refine List.pairwise_cons.mpr ⟨?_, h⟩
        intro z hz
        rcases List.mem_cons.mp hz with rfl | hz
        · exact le_of_lt hc
        · exact le_trans (le_of_lt hc) (hy z hz)
      · rw [insertScore, if_neg hc]
        refine List.pairwise_cons.mpr ⟨?_, ih hys⟩
        intro z hz
        rcases mem_insertScore.mp hz with rfl | hz
        · exact le_of_not_lt hc
        · exact hy z hz

theorem filter_insertScore (d : ℚ) {e : ScoreE} {l : List ScoreE}
    (h : l.Pairwise (fun a b => a.1 ≤ b.1)) :
    (insertScore e l).filter (fun v => decide (v.1 = d)) =
      l.filter (fun v => decide (v.1 = d)) ++ (if e.1 = d then [e] else []) := by
  induction l with
  | nil =>
      by_cases hd : e.1 = d <;> simp [insertScore, hd]
  | cons y ys ih =>
      rcases List.pairwise_cons.mp h with ⟨hy, hys⟩
      by_cases hc : e.1 < y.1
      · rw [insertScore, if_pos hc]
        by_cases hd : e.1 = d
        · have hnil : (y :: ys).filter (fun v => decide (v.1 = d)) = [] := by
            refine List.filter_eq_nil_iff.mpr ?_
            intro z hz
            have hdz : d < z.1 := by
              rcases List.mem_cons.mp hz with rfl | hz
              · rw [← hd]; exact hc
              · rw [← hd]; exact lt_of_lt_of_le hc (hy z hz)
            simp [ne_of_gt hdz]
          rw [hnil]
          simp [List.filter_cons, hd, hnil]
        · simp [List.filter_cons, hd]
      · rw [insertScore, if_neg hc]
        by_cases hyd : y.1 = d
        · simp [List.filter_cons, hyd, ih hys]
        · simp [List.filter_cons, hyd, ih hys]

theorem sortScores_foldl_pairwise (l : List ScoreE) (acc : List ScoreE)
    (h : acc.Pairwise (fun a b => a.1 ≤ b.1)) :
    (l.foldl (fun a x => insertScore x a) acc).Pairwise (fun a b => a.1 ≤ b.1) := by
  induction l generalizing acc with
  | nil => exact h
  | cons x xs ih => exact ih (insertScore x acc) (pairwise_insertScore h)

theorem sortScores_foldl_filter (d : ℚ) (l : List ScoreE) (acc : List ScoreE)
    (h : acc.Pairwise (fun a b => a.1 ≤ b.1)) :
    (l.foldl (fun a x => insertScore x a) acc).filter (fun v => decide (v.1 = d)) =
      acc.filter (fun v => decide (v.1 = d)) ++
        l.filter (fun v => decide (v.1 = d)) := by
  induction l generalizing acc with
  | nil => simp
  | cons x xs ih =>
      rw [List.foldl_cons, ih (insertScore x acc) (pairwise_insertScore h),
        filter_insertScore d h, List.filter_cons]
      by_cases hd : x.1 = d <;> simp [hd]

theorem mem_sortScores_foldl {x : ScoreE} (l acc : List ScoreE) :
    x ∈ l.foldl (fun a e => insertScore e a) acc ↔ x ∈ acc ∨ x ∈ l := by
  induction l generalizing acc with
  | nil => simp
  | cons y ys ih =>
      rw [List.foldl_cons, ih (insertScore y acc)]
      rw [mem_insertScore]
      simp [List.mem_cons]
      tauto

theorem mem_of_mem_sortScores {x : ScoreE} {l : List ScoreE}
    (h : x ∈ sortScores l) : x ∈ l := by
  rcases (mem_sortScores_foldl l []).mp h with h' | h'
  · cases h'
  · exact h'

theorem mem_of_mem_greedyMatch {e : ScoreE} :
    ∀ {l : List ScoreE} {m u : List ℕ}, e ∈ greedyMatch l m u → e ∈ l
  | [], _, _, h => by cases h
  | x :: rest, m, u, h => by
      rw [greedyMatch] at h
      split at h
      · exact List.mem_cons_of_mem x (mem_of_mem_greedyMatch h)
      · rcases List.mem_cons.mp h with h' | h'
        · rw [h']; exact List.mem_cons_self x rest
        · exact List.mem_cons_of_mem x (mem_of_mem_greedyMatch h')

theorem scorePair_eq_some {sf : MTrack → MRegion → ℚ → ℚ × ℚ} {mvt : ℚ}
    {t : MTrack} {r : MRegion} {e : ScoreE}
    (h : scorePair sf mvt t r = some e) :
    e = ((sf t r mvt).1, t, r) ∧ exceedsMaxDistance (sf t r mvt).1 t.mass = false := by
  unfold scorePair at h
  by_cases hex : exceedsMaxDistance (sf t r mvt).1 t.mass
  · rw [if_pos hex] at h; cases h
  · rw [if_neg hex] at h
    simp only [gt_iff_lt, lt_self_iff_false, if_false, Option.some.injEq] at h
    exact ⟨h.symm, Bool.eq_false_iff.mpr hex⟩

theorem buildScores_mem {sf : MTrack → MRegion → ℚ → ℚ × ℚ} {mvt : ℚ}
    {active : List MTrack} {regions : List MRegion} {e : ScoreE}
    (h : e ∈ buildScores sf mvt active regions) :
    e.2.1 ∈ active ∧ exceedsMaxDistance e.1 e.2.1.mass = false := by
  unfold buildScores at h
  rcases List.mem_flatten.mp h with ⟨l, hl, hel⟩
  rcases List.mem_map.mp hl with ⟨t, ht, rfl⟩
  rcases List.mem_filterMap.mp hel with ⟨r, _, hsome⟩
  rcases scorePair_eq_some hsome with ⟨rfl, hex⟩
  exact ⟨ht, hex⟩

theorem exceeds_false_real_bound {d : ℚ} {m : ℕ}
    (h : exceedsMaxDistance d m = false) :
    (d : ℝ) ≤ max 30 (min 95 (7 * Real.sqrt (m : ℝ))) := by
  unfold exceedsMaxDistance at h
  rcases Bool.and_eq_false_iff.mp h with h30 | hrest
  · have : d ≤ 30 := by simpa using h30
    exact le_max_of_le_left (by exact_mod_cast this)
  · rcases Bool.or_eq_false_iff.mp hrest with ⟨h95, hsq⟩
    have hd95 : d ≤ 95 := by simpa using h95
    have hdsq : d ^ 2 ≤ 49 * m := by simpa using hsq
    refine le_max_of_le_right (le_min (by exact_mod_cast hd95) ?_)
    rcases le_or_lt (d : ℝ) 0 with hd | hd
    · exact hd.trans (by positivity)
    · have hsqr : ((d : ℝ)) ^ 2 ≤ 49 * (m : ℝ) := by exact_mod_cast hdsq
      calc (d : ℝ) = Real.sqrt ((d : ℝ) ^ 2) := (Real.sqrt_sq hd.le).symm
        _ ≤ Real.sqrt (49 * (m : ℝ)) := Real.sqrt_le_sqrt hsqr
        _ = 7 * Real.sqrt (m : ℝ) := by
            rw [show (49 : ℝ) * (m : ℝ) = 7 ^ 2 * (m : ℝ) by ring,
              Real.sqrt_mul (by positivity) (m : ℝ), Real.sqrt_sq (by norm_num)]

theorem buildRegion_cpk_error {cfg : DetectConfig} {thresh : Grid}
    {crop : Rect} {frame_on i : ℕ} {st : CompStat} {e : String}
    (hcp : cropPolicyKeeps cfg.cropped_regions_strategy
      (paddedRegion cfg thresh frame_on i st)
      (croppedRegion cfg thresh crop frame_on i st) = .error e)
    (delta : Option QGrid) :
    buildRegion cfg thresh delta crop frame_on i st = .error e := by
  cases delta <;> simp only [buildRegion, hcp]

theorem buildRegion_cpk_false {cfg : DetectConfig} {thresh : Grid}
    {crop : Rect} {frame_on i : ℕ} {st : CompStat}
    (hcp : cropPolicyKeeps cfg.cropped_regions_strategy
      (paddedRegion cfg thresh frame_on i st)
      (croppedRegion cfg thresh crop frame_on i st) = .ok false)
    (delta : Option QGrid) :
    buildRegion cfg thresh delta crop frame_on i st = .ok none := by
  cases delta <;> simp only [buildRegion, hcp]

theorem buildRegion_cpk_true_none {cfg : DetectConfig} {thresh : Grid}
    {crop : Rect} {frame_on i : ℕ} {st : CompStat}
    (hcp : cropPolicyKeeps cfg.cropped_regions_strategy
      (paddedRegion cfg thresh frame_on i st)
      (croppedRegion cfg thresh crop frame_on i st) = .ok true) :
    buildRegion cfg thresh none crop frame_on i st =
      if (croppedRegion cfg thresh crop frame_on i st).pixel_variance <
            cfg.aoi_pixel_variance ∧
          ((croppedRegion cfg thresh crop frame_on i st).mass : ℚ) <
            cfg.aoi_min_mass
      then .ok none
      else .ok (some (croppedRegion cfg thresh crop frame_on i st)) := by
  simp only [buildRegion, hcp]

theorem buildRegion_cpk_true_some {cfg : DetectConfig} {thresh : Grid}
    {crop : Rect} {frame_on i : ℕ} {st : CompStat}
    (hcp : cropPolicyKeeps cfg.cropped_regions_strategy
      (paddedRegion cfg thresh frame_on i st)
      (croppedRegion cfg thresh crop frame_on i st) = .ok true)
    (d : QGrid) :
    buildRegion cfg thresh (some d) crop frame_on i st =
      (if ({ croppedRegion cfg thresh crop frame_on i st with
            pixel_variance := npVar (subgridQ d
              ⟨(croppedRegion cfg thresh crop frame_on i st).x,
               (croppedRegion cfg thresh crop frame_on i st).y,
               (croppedRegion cfg thresh crop frame_on i st).width,
               (croppedRegion cfg thresh crop frame_on i st).height⟩) }
              : Region).pixel_variance < cfg.aoi_pixel_variance ∧
          (({ croppedRegion cfg thresh crop frame_on i st with
            pixel_variance := npVar (subgridQ d
              ⟨(croppedRegion cfg thresh crop frame_on i st).x,
               (croppedRegion cfg thresh crop frame_on i st).y,
               (croppedRegion cfg thresh crop frame_on i st).width,
               (croppedRegion cfg thresh crop frame_on i st).height⟩) }
              : Region).mass : ℚ) < cfg.aoi_min_mass
      then .ok none
      else .ok (some { croppedRegion cfg thresh crop frame_on i st with
            pixel_variance := npVar (subgridQ d
              ⟨(croppedRegion cfg thresh crop frame_on i st).x,
               (croppedRegion cfg thresh crop frame_on i st).y,
               (croppedRegion cfg thresh crop frame_on i st).width,
               (croppedRegion cfg thresh crop frame_on i st).height⟩) })) := by
  simp only [buildRegion, hcp]

theorem mask_pix_le_one (frame : QGrid) (threshold : ℚ) (y x : ℕ) :
    getPix (blur_and_return_as_mask frame threshold) y x ≤ 1 := by
  unfold getPix blur_and_return_as_mask
  simp only [List.getD_eq_getElem?_getD, List.getElem?_map]
  cases (gaussianBlur5 frame)[y]? with
  | none => simp
  | some row =>
      simp only [Option.map_some', Option.getD_some, List.getElem?_map]
      cases row[x]? with
      | none => simp
      | some v =>
          simp only [Option.map_some', Option.getD_some]
          split <;> simp

theorem sumIn_eq_countIn {g : Grid} (hbin : ∀ y x, getPix g y x ≤ 1)
    (x y w h : ℕ) : sumIn g x y w h = countIn g x y w h := by
  unfold sumIn countIn
  congr 1
  apply List.map_congr_left
  intro dy _
  congr 1
  apply List.map_congr_left
  intro dx _
  by_cases h1 : getPix g (y + dy) (x + dx) = 1
  · simp [h1]
  · have h0 : getPix g (y + dy) (x + dx) = 0 := by
      have := hbin (y + dy) (x + dx)
      omega
    simp [h0, h1]

theorem threshOf_pix_le_one (cfg : DetectConfig) (threshold : ℚ)
    (filtered : QGrid) (y x : ℕ) :
    getPix (threshOf cfg threshold filtered) y x ≤ 1 := by
  unfold threshOf
  exact mask_pix_le_one _ _ y x

theorem croppedRegion_box (cfg : DetectConfig) (thresh : Grid) (crop : Rect)
    (frame_on i : ℕ) (st : CompStat) :
    Rect.mk (croppedRegion cfg thresh crop frame_on i st).x
      (croppedRegion cfg thresh crop frame_on i st).y
      (croppedRegion cfg thresh crop frame_on i st).width
      (croppedRegion cfg thresh crop frame_on i st).height =
      paddedCropBox cfg crop st := by
  simp [croppedRegion, paddedRegion, paddedCropBox]

theorem buildRegion_ok_some {cfg : DetectConfig} {thresh : Grid}
    {delta : Option QGrid} {crop : Rect} {frame_on i : ℕ} {st : CompStat}
    {r : Region} (h : buildRegion cfg thresh delta crop frame_on i st = .ok (some r)) :
    r.mass = sumIn thresh st.x st.y st.width st.height ∧
    Rect.mk r.x r.y r.width r.height = paddedCropBox cfg crop st := by
  cases hcp : cropPolicyKeeps cfg.cropped_regions_strategy
      (paddedRegion cfg thresh frame_on i st)
      (croppedRegion cfg thresh crop frame_on i st) with
  | error e => rw [buildRegion_cpk_error hcp delta] at h; cases h
  | ok b =>
      cases b with
      | false => rw [buildRegion_cpk_false hcp delta] at h; simp at h
      | true =>
          cases delta with
          | none =>
              rw [buildRegion_cpk_true_none hcp] at h
              split at h
              · cases h
              · have hr : croppedRegion cfg thresh crop frame_on i st = r := by
                  simpa using h
                rw [← hr]
                exact ⟨croppedRegion_mass cfg thresh crop frame_on i st,
                  croppedRegion_box cfg thresh crop frame_on i st⟩
          | some d =>
              rw [buildRegion_cpk_true_some hcp d] at h
              split at h
              · cases h
              · have hr : { croppedRegion cfg thresh crop frame_on i st with
                    pixel_variance := npVar (subgridQ d
                      ⟨(croppedRegion cfg thresh crop frame_on i st).x,
                       (croppedRegion cfg thresh crop frame_on i st).y,
                       (croppedRegion cfg thresh crop frame_on i st).width,
                       (croppedRegion cfg thresh crop frame_on i st).height⟩) } = r := by
                  simpa using h
                rw [← hr]
                refine ⟨?_, ?_⟩
                · simpa using croppedRegion_mass cfg thresh crop frame_on i st
                · simpa using croppedRegion_box cfg thresh crop frame_on i st

theorem regionsLoop_mem (cfg : DetectConfig) (thresh : Grid)
    (delta : Option QGrid) (crop : Rect) (frame_on : ℕ) :
    ∀ (lst : List (ℕ × CompStat)) (regions : List Region),
      regionsLoop cfg thresh delta crop frame_on lst = .ok regions →
      ∀ r ∈ regions, ∃ p ∈ lst,
        buildRegion cfg thresh delta crop frame_on p.1 p.2 = .ok (some r) := by
  intro lst
  induction lst with
  | nil =>
      intro regions h r hr
      rw [regionsLoop] at h
      cases h
      cases hr
  | cons p rest ih =>
      intro regions h r hr
      obtain ⟨i, st⟩ := p
      rw [regionsLoop] at h
      cases hb : buildRegion cfg thresh delta crop frame_on i st with
      | error e => rw [hb] at h; cases h
      | ok o =>
          rw [hb] at h
          cases o with
          | none =>
              rcases ih regions h r hr with ⟨q, hq, hbq⟩
              exact ⟨q, List.mem_cons_of_mem _ hq, hbq⟩
          | some r0 =>
              cases hrest : regionsLoop cfg thresh delta crop frame_on rest with
              | error e => rw [hrest] at h; cases h
              | ok rs =>
                  rw [hrest] at h
                  cases h
                  rcases List.mem_cons.mp hr with hr' | hr'
                  · exact ⟨(i, st), List.mem_cons_self _ _, by rw [← hr'] at hb; exact hb⟩
                  · rcases ih rs hrest r hr' with ⟨q, hq, hbq⟩
                    exact ⟨q, List.mem_cons_of_mem _ hq, hbq⟩

theorem cropPolicyKeeps_invalid {s : String} (h1 : s ≠ "cautious")
    (h2 : s ≠ "none") (h3 : s ≠ "all") (old r : Region) :
    cropPolicyKeeps s old r =
      .error ("Invalid mode for CROPPED_REGIONS_STRATEGY, expected [\x27all\x27,\x27cautious\x27,\x27none\x27] but found "
        ++ s) := by
  unfold cropPolicyKeeps
  rw [if_neg h1, if_neg h2, if_pos h3]

theorem cropPolicyKeeps_valid {s : String}
    (h : s = "all" ∨ s = "cautious" ∨ s = "none") (old r : Region) :
    ∃ b, cropPolicyKeeps s old r = .ok b := by
  unfold cropPolicyKeeps
  rcases h with rfl | rfl | rfl
  · simp
  · rw [if_pos rfl, ← apply_ite Except.ok]
    exact ⟨_, rfl⟩
  · rw [if_neg (by decide), if_pos rfl, ← apply_ite Except.ok]
    exact ⟨_, rfl⟩

theorem buildRegion_invalid {cfg : DetectConfig}
    (h1 : cfg.cropped_regions_strategy ≠ "cautious")
    (h2 : cfg.cropped_regions_strategy ≠ "none")
    (h3 : cfg.cropped_regions_strategy ≠ "all")
    (thresh : Grid) (delta : Option QGrid) (crop : Rect) (frame_on i : ℕ)
    (st : CompStat) :
    buildRegion cfg thresh delta crop frame_on i st =
      .error ("Invalid mode for CROPPED_REGIONS_STRATEGY, expected [\x27all\x27,\x27cautious\x27,\x27none\x27] but found "
        ++ cfg.cropped_regions_strategy) := by
  exact buildRegion_cpk_error (cropPolicyKeeps_invalid h1 h2 h3 _ _) delta

theorem buildRegion_valid_ne_error {cfg : DetectConfig}
    (h : cfg.cropped_regions_strategy = "all" ∨
      cfg.cropped_regions_strategy = "cautious" ∨
      cfg.cropped_regions_strategy = "none")
    (thresh : Grid) (delta : Option QGrid) (crop : Rect) (frame_on i : ℕ)
    (st : CompStat) (e : String) :
    buildRegion cfg thresh delta crop frame_on i st ≠ .error e := by
  rcases cropPolicyKeeps_valid h (paddedRegion cfg thresh frame_on i st)
      (croppedRegion cfg thresh crop frame_on i st) with ⟨b, hb⟩
  cases b with
  | false => rw [buildRegion_cpk_false hb delta]; simp
  | true =>
      cases delta with
      | none => rw [buildRegion_cpk_true_none hb]; split <;> simp
      | some d => rw [buildRegion_cpk_true_some hb d]; split <;> simp

theorem regionsLoop_valid_ok {cfg : DetectConfig}
    (h : cfg.cropped_regions_strategy = "all" ∨
      cfg.cropped_regions_strategy = "cautious" ∨
      cfg.cropped_regions_strategy = "none")
    (thresh : Grid) (delta : Option QGrid) (crop : Rect) (frame_on : ℕ) :
    ∀ lst : List (ℕ × CompStat), ∃ regions,
      regionsLoop cfg thresh delta crop frame_on lst = .ok regions := by
  intro lst
  induction lst with
  | nil => exact ⟨[], by rw [regionsLoop]⟩
  | cons p rest ih =>
      obtain ⟨i, st⟩ := p
      obtain ⟨rs, hrs⟩ := ih
      cases hb : buildRegion cfg thresh delta crop frame_on i st with
      | error e => exact absurd hb (buildRegion_valid_ne_error h thresh delta crop frame_on i st e)
      | ok o =>
          cases o with
          | none => exact ⟨rs, by rw [regionsLoop, hb]; exact hrs⟩
          | some r0 => exact ⟨r0 :: rs, by rw [regionsLoop, hb, hrs]⟩

/-! ## Claim theorems -/

/-- C1, counterexample: in preview-background mode, a thermal frame `[10]`
against background `[100]` (temperature threshold 0, calibration mean 10)
filters to `[-90]`, a negative pixel — `get_filtered` output is not
non-negative in every mode. -/
theorem C1_counterexample :
    get_filtered true 0 10 [10] (some [100]) = [-90] ∧ ((-90 : ℚ) < 0) := by
  refine ⟨?_, by norm_num⟩
  norm_num [get_filtered, npAverage, pyRound, npMedian, sortQ, insertQ, relu]

/-- C1 (amended): in the no-background mode and in the statistical-background
mode every pixel of the frame returned by `get_filtered` is non-negative;
the preview-background branch performs no final clamp and can output negative
pixels (see `C1_counterexample`). -/
theorem C1_filtered_nonneg (b : Bool) (tth mbv : ℚ) (thermal : List ℤ)
    (bg : List ℚ) :
    (∀ p ∈ get_filtered b tth mbv thermal none, 0 ≤ p) ∧
    (∀ p ∈ get_filtered false tth mbv thermal (some bg), 0 ≤ p) := by
  constructor
  · intro p hp
    simp only [get_filtered, List.mem_map] at hp
    obtain ⟨q, _, rfl⟩ := hp
    exact relu_nonneg _
  · intro p hp
    simp only [get_filtered, Bool.false_eq_true, if_false, List.mem_map] at hp
    obtain ⟨q, _, rfl⟩ := hp
    exact relu_nonneg _

/-- Witness for C1: pixel 0 of the no-background filtering of `[5]` is
non-negative. -/
theorem C1_witness : ((0 : ℚ) ∈ get_filtered false 0 0 [5] none) ∧ (0 : ℚ) ≤ 0 :=
  ⟨by norm_num [get_filtered, npMedian, sortQ, insertQ, relu],
   (C1_filtered_nonneg false 0 0 [5] []).1 0
     (by norm_num [get_filtered, npMedian, sortQ, insertQ, relu])⟩

/-- C3, the code evaluated at the failing input: three tracks that pass every
filter, scored 9 > 8 > 7, with `max_tracks = 2`.  `filter_tracks` keeps the
two best tracks but its rejected list stays empty — the track it dropped is
never recorded, because the source slices the already-truncated list.  The
spec-described cap (`filter_tracks_spec_cap`) records it. -/
theorem C3_cap_drops_silently :
    filter_tracks cfgFilter (some 2) (fun _ _ => 0)
        [passTrack 1 9, passTrack 2 8, passTrack 3 7] =
      ([passTrack 1 9, passTrack 2 8], []) ∧
    (filter_tracks_spec_cap cfgFilter (some 2) (fun _ _ => 0)
        [passTrack 1 9, passTrack 2 8, passTrack 3 7]).2 =
      [("Too many tracks", passTrack 3 7)] := by
  constructor <;>
    norm_num [filter_tracks, filter_tracks_spec_cap, sortByScoreDesc,
      insertByScoreDesc, classifyTracks, highestOverlap, cfgFilter, passTrack]

/-- C5: the size-change rejection test compares the clipped mass to itself
and never rejects a candidate: the per-pair scoring step equals the variant
with the test removed, and `apply_matchings` is extensionally equal to
`apply_matchings_no_size_test`. -/
theorem C5_size_test_inert :
    (∀ sf mvt t r, scorePair sf mvt t r = scorePairNoSizeTest sf mvt t r) ∧
    (∀ cfg sf active regions frame_on next_id,
      apply_matchings cfg sf active regions frame_on next_id =
        apply_matchings_no_size_test cfg sf active regions frame_on next_id) := by
  have hpair : ∀ sf mvt t r, scorePair sf mvt t r = scorePairNoSizeTest sf mvt t r := by
    intro sf mvt t r
    simp [scorePair, scorePairNoSizeTest]
  have hscores : ∀ sf mvt active regions,
      buildScores sf mvt active regions = buildScoresNoSizeTest sf mvt active regions := by
    intro sf mvt active regions
    simp [buildScores, buildScoresNoSizeTest, hpair]
  exact ⟨hpair, fun cfg sf active regions frame_on next_id => by
    simp only [apply_matchings, apply_matchings_no_size_test, hscores]⟩

/-- C8: any loaded clip with between 1 and 9 frames is rejected by
`extract_tracks` without an exception: the validation returns the rejection
(rather than an error), the reject reason cites the frame count, and the
track bookkeeping lists stay as `__init__` left them — empty. -/
theorem C8_short_clip_rejected (cfg : ExtractConfig) (preview_secs : ℕ)
    (rns : Bool) (stats : BgStats) (is_static : Bool) (n : ℕ) (tth : ℚ)
    (h1 : 1 ≤ n) (h9 : n ≤ 9) :
    ∃ st, extract_tracks_validation cfg preview_secs rns stats is_static n
        (initExtractState tth) =
      .ok (.rejected ("Clip too short " ++ toString n ++ " frames") st) ∧
      st.reject_reason = some ("Clip too short " ++ toString n ++ " frames") ∧
      st.tracks = [] ∧ st.active_tracks = [] := by
  have hn : ¬ n = 0 := by omega
  simp only [extract_tracks_validation, if_neg hn, if_pos h9]
  exact ⟨_, rfl, by simp, by simp [initExtractState, apply_ite],
    by simp [initExtractState, apply_ite]⟩

/-- Witness for C8: a 5-frame clip is rejected with reason
"Clip too short 5 frames" and empty track lists. -/
theorem C8_witness :
    ∃ st, extract_tracks_validation cfgExtract 2 false statsBg true 5
        (initExtractState 40) =
      .ok (.rejected ("Clip too short " ++ toString 5 ++ " frames") st) ∧
      st.reject_reason = some ("Clip too short " ++ toString 5 ++ " frames") ∧
      st.tracks = [] ∧ st.active_tracks = [] :=
  C8_short_clip_rejected cfgExtract 2 false statsBg true 5 40 (by norm_num)
    (by norm_num)

/-- C10: on the first frame of a clip (`delta = none`, i.e. `prev_filtered is
None`), a region kept by the loop body has `pixel_variance` still at its
constructed value 0 and, provided `aoi_pixel_variance > 0`, mass at least
`aoi_min_mass`; conversely a component that passes the cropping policy is
kept if and only if its mass reaches `aoi_min_mass`. -/
theorem C10_first_frame_mass_only (cfg : DetectConfig) (thresh : Grid)
    (crop : Rect) (frame_on i : ℕ) (st : CompStat)
    (hv : 0 < cfg.aoi_pixel_variance) :
    (∀ r : Region, buildRegion cfg thresh none crop frame_on i st = .ok (some r) →
      r.pixel_variance = 0 ∧ cfg.aoi_min_mass ≤ (r.mass : ℚ)) ∧
    (cropPolicyKeeps cfg.cropped_regions_strategy
        (paddedRegion cfg thresh frame_on i st)
        (croppedRegion cfg thresh crop frame_on i st) = .ok true →
      (buildRegion cfg thresh none crop frame_on i st =
          .ok (some (croppedRegion cfg thresh crop frame_on i st)) ↔
        cfg.aoi_min_mass ≤ ((croppedRegion cfg thresh crop frame_on i st).mass : ℚ))) := by
  have hvar := croppedRegion_pixel_variance cfg thresh crop frame_on i st
  have hbuild : buildRegion cfg thresh none crop frame_on i st =
      match cropPolicyKeeps cfg.cropped_regions_strategy
          (paddedRegion cfg thresh frame_on i st)
          (croppedRegion cfg thresh crop frame_on i st) with
      | .error e => .error e
      | .ok false => .ok none
      | .ok true =>
          if (croppedRegion cfg thresh crop frame_on i st).pixel_variance <
                cfg.aoi_pixel_variance ∧
              ((croppedRegion cfg thresh crop frame_on i st).mass : ℚ) <
                cfg.aoi_min_mass
          then .ok none
          else .ok (some (croppedRegion cfg thresh crop frame_on i st)) := by
    simp only [buildRegion]
  constructor
  · intro r hr
    rw [hbuild] at hr
    cases hcp : cropPolicyKeeps cfg.cropped_regions_strategy
        (paddedRegion cfg thresh frame_on i st)
        (croppedRegion cfg thresh crop frame_on i st) with
    | error e => rw [hcp] at hr; exact absurd hr (by simp)
    | ok b =>
        rw [hcp] at hr
        cases b with
        | false => exact absurd hr (by simp)
        | true =>
            simp only [hvar] at hr
            by_cases hm : ((croppedRegion cfg thresh crop frame_on i st).mass : ℚ) <
                cfg.aoi_min_mass
            · rw [if_pos ⟨hv, hm⟩] at hr
              exact absurd hr (by simp)
            · rw [if_neg (by exact fun h => hm h.2)] at hr
              obtain rfl : croppedRegion cfg thresh crop frame_on i st = r := by
                simpa using hr
              exact ⟨hvar, le_of_not_lt hm⟩
  · intro hcp
    rw [hbuild, hcp]
    simp only [hvar]
    constructor
    · intro hr
      by_cases hm : ((croppedRegion cfg thresh crop frame_on i st).mass : ℚ) <
          cfg.aoi_min_mass
      · rw [if_pos ⟨hv, hm⟩] at hr
        exact absurd hr (by simp)
      · exact le_of_not_lt hm
    · intro hm
      rw [if_neg (by exact fun h => absurd hm (not_le.mpr h.2))]

/-- Witness for C10: a single foreground pixel component on the first frame
is kept because its mass 1 reaches `aoi_min_mass = 1`. -/
theorem C10_witness :
    buildRegion cfgDilate [[1]] none (Rect.mk 0 0 5 5) 0 1 ⟨0, 0, 1, 1, 1⟩ =
      .ok (some (croppedRegion cfgDilate [[1]] (Rect.mk 0 0 5 5) 0 1 ⟨0, 0, 1, 1, 1⟩)) :=
  ((C10_first_frame_mass_only cfgDilate [[1]] (Rect.mk 0 0 5 5) 0 1 ⟨0, 0, 1, 1, 1⟩
      (by norm_num [cfgDilate])).2
    (by simp [cfgDilate, cropPolicyKeeps])).mpr
    (by rw [croppedRegion_mass]
        norm_num [sumIn, getPix, List.range_succ, cfgDilate])

/-- C4: every assignment committed by `apply_matchings` pairs a track of the
input active list with a distance no larger than
`clip(7 * sqrt(track.mass), 30, 95)` — candidates beyond the bound are
filtered out before the greedy commit and the sort and commit stages only
select among surviving candidates. -/
theorem C4_commit_distance_bound (cfg : MatchConfig)
    (sf : MTrack → MRegion → ℚ → ℚ × ℚ) (active : List MTrack)
    (regions : List MRegion) (frame_on next_id : ℕ) :
    ∀ c ∈ (apply_matchings cfg sf active regions frame_on next_id).commits,
      ∃ t ∈ active, t.tid = c.1 ∧
        (c.2.2 : ℝ) ≤ max 30 (min 95 (7 * Real.sqrt (t.mass : ℝ))) := by
  intro c hc
  have hc' : c ∈ (greedyMatch
      (sortScores (buildScores sf cfg.moving_vel_thresh active regions)) [] []).map
        (fun e => (e.2.1.tid, e.2.2.rid, e.1)) := by
    simpa only [apply_matchings] using hc
  rcases List.mem_map.mp hc' with ⟨e, he, rfl⟩
  have hescores : e ∈ buildScores sf cfg.moving_vel_thresh active regions :=
    mem_of_mem_sortScores (mem_of_mem_greedyMatch he)
  rcases buildScores_mem hescores with ⟨ht, hex⟩
  exact ⟨e.2.1, ht, rfl, exceeds_false_real_bound hex⟩

/-- Witness for C4: the single committed assignment `(1, 0, 0)` of a
one-track, one-region frame satisfies the clipped distance bound. -/
theorem C4_witness :
    ∃ t ∈ [trackA], t.tid = 1 ∧
      ((0 : ℚ) : ℝ) ≤ max 30 (min 95 (7 * Real.sqrt ((t.mass : ℕ) : ℝ))) :=
  C4_commit_distance_bound cfgMatch sfZero [trackA] [regionA] 3 2 (1, 0, 0)
    (by norm_num [apply_matchings, buildScores, scorePair, sortScores, insertScore,
      greedyMatch, exceedsMaxDistance, npClipNat, sfZero, trackA, regionA, cfgMatch])

/-- C6: in the new-track pass of `apply_matchings`, an unmatched region whose
overlap with some currently active track's latest box exceeds a quarter of
the region's own area spawns no new track (the step leaves the state
unchanged), and an unmatched region whose overlap with every active track's
latest box is at most a quarter of its area spawns exactly one new track
seeded at the region. -/
theorem C6_new_track_overlap_guard (used : List ℕ) (frame_on : ℕ) (r : MRegion)
    (rs : List MRegion) (active : List MTrack) (ntids : List ℕ)
    (created : List MTrack) (nid : ℕ) (hr : r.rid ∉ used) :
    ((∃ t ∈ active, ((r.rect.width * r.rect.height : ℤ) : ℚ) * (1 / 4) <
        ((overlap_area t.bounds r.rect : ℤ) : ℚ)) →
      newTrackPass used frame_on (r :: rs) active ntids created nid =
        newTrackPass used frame_on rs active ntids created nid) ∧
    ((∀ t ∈ active, ((overlap_area t.bounds r.rect : ℤ) : ℚ) ≤
        ((r.rect.width * r.rect.height : ℤ) : ℚ) * (1 / 4)) →
      newTrackPass used frame_on (r :: rs) active ntids created nid =
        newTrackPass used frame_on rs
          (active ++ [{ tid := nid, mass := r.mass, bounds := r.rect,
                        frames_since_target_seen := 0, start_frame := frame_on }])
          (ntids ++ [nid])
          (created ++ [{ tid := nid, mass := r.mass, bounds := r.rect,
                         frames_since_target_seen := 0, start_frame := frame_on }])
          (nid + 1)) := by
  constructor
  · rintro ⟨t, ht, hover⟩
    rw [newTrackPass, if_neg hr, if_pos]
    constructor
    · exact fun hnil => by
        have : overlap_area t.bounds r.rect ∈ active.map
            (fun t => overlap_area t.bounds r.rect) := List.mem_map_of_mem _ ht
        rw [hnil] at this
        cases this
    · have hmem : overlap_area t.bounds r.rect ∈ active.map
          (fun t => overlap_area t.bounds r.rect) := List.mem_map_of_mem _ ht
      have hle : overlap_area t.bounds r.rect ≤
          maxZ (active.map (fun t => overlap_area t.bounds r.rect)) :=
        le_maxZ_of_mem hmem
      calc ((r.rect.width * r.rect.height : ℤ) : ℚ) * (1 / 4)
          < ((overlap_area t.bounds r.rect : ℤ) : ℚ) := hover
        _ ≤ _ := by exact_mod_cast hle
  · intro hall
    rw [newTrackPass, if_neg hr, if_neg]
    rintro ⟨hnil, hover⟩
    have hmem : maxZ (active.map (fun t => overlap_area t.bounds r.rect)) ∈
        active.map (fun t => overlap_area t.bounds r.rect) := maxZ_mem hnil
    rcases List.mem_map.mp hmem with ⟨t, ht, heq⟩
    have := hall t ht
    rw [heq] at this
    exact absurd hover (not_lt.mpr this)

/-- Witness for C6: a region coinciding with the only active track's box
(overlap 16 > 4 = area/4) spawns no track: the step equals skipping the
region. -/
theorem C6_witness :
    newTrackPass [] 7 [regionA] [trackA] [] [] 5 =
      newTrackPass [] 7 ([] : List MRegion) [trackA] [] [] 5 :=
  (C6_new_track_overlap_guard [] 7 regionA [] [trackA] [] [] 5 (by simp)).1
    ⟨trackA, by simp, by norm_num [overlap_area, trackA, regionA, rectUnit]⟩

/-- C7: `apply_matchings` is deterministic — two runs from identical
active-track state, region list, frame number and id counter produce
identical results — and its sort is the stable ascending sort by distance:
the output is pairwise ordered by distance and, for every distance value,
lists the entries having that distance in their original candidate
enumeration order. -/
theorem C7_deterministic_stable :
    (∀ (cfg : MatchConfig) (sf : MTrack → MRegion → ℚ → ℚ × ℚ)
        (a1 a2 : List MTrack) (r1 r2 : List MRegion) (f1 f2 n1 n2 : ℕ),
      a1 = a2 → r1 = r2 → f1 = f2 → n1 = n2 →
      apply_matchings cfg sf a1 r1 f1 n1 = apply_matchings cfg sf a2 r2 f2 n2) ∧
    (∀ l : List ScoreE,
      (sortScores l).Pairwise (fun a b => a.1 ≤ b.1) ∧
      ∀ d : ℚ, (sortScores l).filter (fun v => decide (v.1 = d)) =
        l.filter (fun v => decide (v.1 = d))) := by
  constructor
  · intro cfg sf a1 a2 r1 r2 f1 f2 n1 n2 ha hr hf hn
    rw [ha, hr, hf, hn]
  · intro l
    constructor
    · exact sortScores_foldl_pairwise l [] (List.Pairwise.nil)
    · intro d
      have := sortScores_foldl_filter d l [] (List.Pairwise.nil)
      simpa [sortScores] using this

/-- Witness for C7: two runs of `apply_matchings` on the same one-track,
one-region state coincide. -/
theorem C7_witness :
    apply_matchings cfgMatch sfZero [trackA] [regionA] 3 2 =
      apply_matchings cfgMatch sfZero [trackA] [regionA] 3 2 :=
  C7_deterministic_stable.1 cfgMatch sfZero [trackA] [trackA] [regionA] [regionA]
    3 3 2 2 rfl rfl rfl rfl

set_option maxHeartbeats 2000000 in
theorem spikeThresh_eval : threshOf cfgDilate 35 spikeFrame = spikeThresh := by
  simp only [threshOf, cfgDilate, spikeFrame, blur_and_return_as_mask, gaussianBlur5,
    gaussWeights, getPixQ, gridRows, gridCols, reflectIdx, List.range_succ,
    List.range_zero, List.map_cons, List.map_nil, List.sum_cons, List.sum_nil,
    List.append_assoc, List.cons_append, List.nil_append, List.length_cons,
    List.length_nil, List.getD_cons_zero, List.getD_cons_succ, List.headD_cons,
    List.getD_nil, spikeThresh]
  norm_num

theorem spikeDilated_eval :
    dilatedOf cfgDilate 35 spikeFrame = dilateGrid 3 spikeThresh := by
  unfold dilatedOf
  rw [spikeThresh_eval]
  norm_num [cfgDilate]

set_option maxRecDepth 4000 in
theorem spikeComponents_eval :
    componentsOf (dilatedOf cfgDilate 35 spikeFrame) = [spikeComp] := by
  rw [spikeDilated_eval]; decide

set_option maxRecDepth 4000 in
theorem spike_regions_eval :
    get_regions_of_interest cfgDilate 35 0 spikeFrame none =
      .ok ([spikeRegion], spikeMask) := by
  have hstats : (componentsOf (dilatedOf cfgDilate 35 spikeFrame)).map compStats =
      [⟨0, 0, 5, 5, 25⟩] := by
    rw [spikeComponents_eval]; decide
  have henum : (((componentsOf (dilatedOf cfgDilate 35 spikeFrame)).map
      compStats).enum.map (fun p => (p.1 + 1, p.2))) =
      [(1, (⟨0, 0, 5, 5, 25⟩ : CompStat))] := by
    rw [hstats]; decide
  have hmask : fullMask (gridRows spikeFrame) (gridCols spikeFrame)
      cfgDilate.edge_pixels (componentsOf (dilatedOf cfgDilate 35 spikeFrame)) =
      spikeMask := by
    rw [spikeComponents_eval]; decide
  have hloop : regionsLoop cfgDilate spikeThresh none
      ⟨0, 0, 5, 5⟩ 0 [(1, (⟨0, 0, 5, 5, 25⟩ : CompStat))] =
      .ok [spikeRegion] := by
    norm_num [regionsLoop, buildRegion, croppedRegion, paddedRegion, cropPolicyKeeps,
      cropRect, sumIn, getPix, cfgDilate, spikeThresh, spikeRegion,
      List.range_succ, List.range_zero]
  simp only [get_regions_of_interest, henum, hmask, spikeThresh_eval, Option.map]
  have hedge : cfgDilate.edge_pixels = 0 := rfl
  norm_num [hedge, spikeFrame, gridRows, gridCols]
  rw [hloop]

/-- C2, counterexample: on a 5x5 frame with a single hot pixel, the
pre-dilation mask has one single-pixel component with bounding box
(2, 2, 1, 1), but the emitted Region takes its box (0, 0, 5, 5) from the
dilated mask's component statistics — only the mass (1) is recomputed from
the pre-dilation mask.  Had the box come from the pre-dilation component as
the claim states, the region's box would have been (2, 2, 1, 1). -/
theorem C2_counterexample :
    (componentsOf (threshOf cfgDilate 35 spikeFrame)).map compStats =
      [⟨2, 2, 1, 1, 1⟩] ∧
    (componentsOf (dilatedOf cfgDilate 35 spikeFrame)).map compStats =
      [⟨0, 0, 5, 5, 25⟩] ∧
    get_regions_of_interest cfgDilate 35 0 spikeFrame none =
      .ok ([spikeRegion], spikeMask) ∧
    (spikeRegion.x, spikeRegion.y, spikeRegion.width, spikeRegion.height) =
      ((0 : ℤ), (0 : ℤ), (5 : ℤ), (5 : ℤ)) ∧
    paddedCropBox cfgDilate ⟨0, 0, 5, 5⟩ ⟨2, 2, 1, 1, 1⟩ = ⟨2, 2, 1, 1⟩ ∧
    Rect.mk 0 0 5 5 ≠ Rect.mk 2 2 1 1 := by
  refine ⟨?_, ?_, spike_regions_eval, by decide, by decide, by decide⟩
  · rw [spikeThresh_eval]; decide
  · rw [spikeComponents_eval]; decide

/-- C2 (amended): every Region returned by `get_regions_of_interest` takes
its bounding box from a component of the *dilated* mask — padded, translated
and cropped — while its mass is the count of foreground pixels of the
*pre-dilation* blurred/thresholded mask inside that dilated component's
(unpadded) bounding box. -/
theorem C2_region_sources (cfg : DetectConfig) (threshold : ℚ) (frame_on : ℕ)
    (filtered : QGrid) (prev : Option QGrid) (out : List Region × Grid)
    (h : get_regions_of_interest cfg threshold frame_on filtered prev = .ok out) :
    ∀ r ∈ out.1,
      ∃ st ∈ (componentsOf (dilatedOf cfg threshold filtered)).map compStats,
        r.mass = countIn (threshOf cfg threshold filtered)
          st.x st.y st.width st.height ∧
        Rect.mk r.x r.y r.width r.height =
          paddedCropBox cfg ⟨(cfg.edge_pixels : ℤ), (cfg.edge_pixels : ℤ),
            (gridCols filtered : ℤ) - 2 * (cfg.edge_pixels : ℤ),
            (gridRows filtered : ℤ) - 2 * (cfg.edge_pixels : ℤ)⟩ st := by
  intro r hr
  simp only [get_regions_of_interest] at h
  split at h
  · cases h
  next regions heq =>
    have hout : out = (regions,
        fullMask (gridRows filtered) (gridCols filtered) cfg.edge_pixels
          (componentsOf (dilatedOf cfg threshold filtered))) := by
      cases h; rfl
    subst hout
    rcases regionsLoop_mem cfg (threshOf cfg threshold filtered)
        (prev.map (fun p => deltaFrame filtered p)) _ frame_on _ regions heq r hr
      with ⟨p, hp, hb⟩
    rcases List.mem_map.mp hp with ⟨q, hq, rfl⟩
    have hst : q.2 ∈ (componentsOf (dilatedOf cfg threshold filtered)).map compStats :=
      List.snd_mem_of_mem_enumFrom hq
    rcases buildRegion_ok_some hb with ⟨hm, hbox⟩
    refine ⟨q.2, hst, ?_, hbox⟩
    rw [hm]
    exact sumIn_eq_countIn (fun a b => threshOf_pix_le_one cfg threshold filtered a b)
      q.2.x q.2.y q.2.width q.2.height

/-- Witness for C2: the spike frame's single emitted region has mass 1, the
foreground count of the pre-dilation mask inside the dilated component's
box, and its box is the padded crop of the dilated component's statistics. -/
theorem C2_witness :
    ∃ st ∈ (componentsOf (dilatedOf cfgDilate 35 spikeFrame)).map compStats,
      spikeRegion.mass = countIn (threshOf cfgDilate 35 spikeFrame)
        st.x st.y st.width st.height ∧
      Rect.mk spikeRegion.x spikeRegion.y spikeRegion.width spikeRegion.height =
        paddedCropBox cfgDilate ⟨(cfgDilate.edge_pixels : ℤ),
          (cfgDilate.edge_pixels : ℤ),
          (gridCols spikeFrame : ℤ) - 2 * (cfgDilate.edge_pixels : ℤ),
          (gridRows spikeFrame : ℤ) - 2 * (cfgDilate.edge_pixels : ℤ)⟩ st :=
  C2_region_sources cfgDilate 35 0 spikeFrame none ([spikeRegion], spikeMask)
    spike_regions_eval spikeRegion (by simp)

set_option maxHeartbeats 1000000 in
theorem zeroThresh_eval :
    threshOf cfgBadStrategy 0 zeroFrame3 = [[0, 0, 0], [0, 0, 0], [0, 0, 0]] := by
  simp only [threshOf, cfgBadStrategy, zeroFrame3, blur_and_return_as_mask,
    gaussianBlur5, gaussWeights, getPixQ, gridRows, gridCols, reflectIdx,
    List.range_succ, List.range_zero, List.map_cons, List.map_nil, List.sum_cons,
    List.sum_nil, List.append_assoc, List.cons_append, List.nil_append,
    List.length_cons, List.length_nil, List.getD_cons_zero, List.getD_cons_succ,
    List.headD_cons, List.getD_nil]
  norm_num

set_option maxHeartbeats 1000000 in
theorem onesThresh_eval :
    threshOf cfgBadStrategy (-1) zeroFrame3 = [[1, 1, 1], [1, 1, 1], [1, 1, 1]] := by
  simp only [threshOf, cfgBadStrategy, zeroFrame3, blur_and_return_as_mask,
    gaussianBlur5, gaussWeights, getPixQ, gridRows, gridCols, reflectIdx,
    List.range_succ, List.range_zero, List.map_cons, List.map_nil, List.sum_cons,
    List.sum_nil, List.append_assoc, List.cons_append, List.nil_append,
    List.length_cons, List.length_nil, List.getD_cons_zero, List.getD_cons_succ,
    List.headD_cons, List.getD_nil]
  norm_num

/-- C9, counterexample: with the unrecognized strategy "weird" but a frame in
which no component is detected, `get_regions_of_interest` raises nothing and
returns an empty region list — the ValueError check sits inside the
per-component loop, so it does not fire "immediately" on every frame. -/
theorem C9_counterexample :
    get_regions_of_interest cfgBadStrategy 0 0 zeroFrame3 none =
      .ok ([], [[0, 0, 0], [0, 0, 0], [0, 0, 0]]) ∧
    cfgBadStrategy.cropped_regions_strategy ≠ "all" ∧
    cfgBadStrategy.cropped_regions_strategy ≠ "cautious" ∧
    cfgBadStrategy.cropped_regions_strategy ≠ "none" := by
  have hd : dilatedOf cfgBadStrategy 0 zeroFrame3 =
      threshOf cfgBadStrategy 0 zeroFrame3 := by
    unfold dilatedOf
    norm_num [cfgBadStrategy]
  have hcomps : componentsOf (dilatedOf cfgBadStrategy 0 zeroFrame3) = [] := by
    rw [hd, zeroThresh_eval]; decide
  refine ⟨?_, by decide, by decide, by decide⟩
  simp only [get_regions_of_interest, hcomps, List.map_nil, List.enum_nil,
    regionsLoop, Option.map]
  have hfm : fullMask (gridRows zeroFrame3) (gridCols zeroFrame3)
      cfgBadStrategy.edge_pixels [] = [[0, 0, 0], [0, 0, 0], [0, 0, 0]] := by
    decide
  rw [hfm]

/-- C9 (amended): with an unrecognized `cropped_regions_strategy`, region
detection raises the ValueError exactly when at least one connected component
is detected in the frame (the check sits inside the per-component loop, so a
frame with no components raises nothing); with any of the three recognized
values it never raises. -/
theorem C9_strategy_validation (cfg : DetectConfig) (threshold : ℚ)
    (frame_on : ℕ) (filtered : QGrid) (prev : Option QGrid) :
    (cfg.cropped_regions_strategy ≠ "cautious" →
     cfg.cropped_regions_strategy ≠ "none" →
     cfg.cropped_regions_strategy ≠ "all" →
      ((∃ e, get_regions_of_interest cfg threshold frame_on filtered prev =
          .error e) ↔
        componentsOf (dilatedOf cfg threshold filtered) ≠ [])) ∧
    ((cfg.cropped_regions_strategy = "all" ∨
      cfg.cropped_regions_strategy = "cautious" ∨
      cfg.cropped_regions_strategy = "none") →
      ∀ e, get_regions_of_interest cfg threshold frame_on filtered prev ≠
        .error e) := by
  constructor
  · intro h1 h2 h3
    constructor
    · rintro ⟨e, he⟩ hnil
      simp only [get_regions_of_interest, hnil, List.map_nil, List.enum_nil,
        regionsLoop] at he
      exact Except.noConfusion he
    · intro hne
      cases hc : componentsOf (dilatedOf cfg threshold filtered) with
      | nil => exact absurd hc hne
      | cons c cs =>
          refine ⟨"Invalid mode for CROPPED_REGIONS_STRATEGY, expected [\x27all\x27,\x27cautious\x27,\x27none\x27] but found "
            ++ cfg.cropped_regions_strategy, ?_⟩
          simp only [get_regions_of_interest, hc, List.map_cons, List.enum_cons,
            Nat.zero_add, regionsLoop,
            buildRegion_invalid h1 h2 h3 (threshOf cfg threshold filtered)
              (prev.map (fun p => deltaFrame filtered p)) _ frame_on 1
              (compStats c)]
  · intro hval e
    intro he
    simp only [get_regions_of_interest] at he
    split at he
    next e0 heq =>
        rcases regionsLoop_valid_ok hval (threshOf cfg threshold filtered)
            (prev.map (fun p => deltaFrame filtered p))
            ⟨(cfg.edge_pixels : ℤ), (cfg.edge_pixels : ℤ),
              (gridCols filtered : ℤ) - 2 * (cfg.edge_pixels : ℤ),
              (gridRows filtered : ℤ) - 2 * (cfg.edge_pixels : ℤ)⟩ frame_on
            (((componentsOf (dilatedOf cfg threshold filtered)).map
              compStats).enum.map (fun p => (p.1 + 1, p.2)))
          with ⟨regions, hr⟩
        rw [hr] at heq
        cases heq
    next regions heq => cases he

/-- Witness for C9: at threshold -1 every pixel of the all-zero 3x3 frame is
foreground, one component is detected, and with the unrecognized strategy
"weird" region detection raises the ValueError. -/
theorem C9_witness :
    ∃ e, get_regions_of_interest cfgBadStrategy (-1) 0 zeroFrame3 none =
      .error e := by
  have hd : dilatedOf cfgBadStrategy (-1) zeroFrame3 =
      threshOf cfgBadStrategy (-1) zeroFrame3 := by
    unfold dilatedOf
    norm_num [cfgBadStrategy]
  have hne : componentsOf (dilatedOf cfgBadStrategy (-1) zeroFrame3) ≠ [] := by
    rw [hd, onesThresh_eval]; decide
  exact ((C9_strategy_validation cfgBadStrategy (-1) 0 zeroFrame3 none).1
    (by decide) (by decide) (by decide)).mpr hne

end ClassifierPipeline
